import Mathlib

/-!
Shallow embedding of `Techsen_gen3_CLI.py`: the swara/raaga scale model,
tonic calibration, the note tracker (`input_callback`), the glide scheduler,
and the flute synthesizer (`flute_callback`).  Machine floats are modelled
exactly: all rational-valued quantities are `ℚ`, frequencies and phases are
`ℝ`.
-/

namespace Techsen

/-- CONFIG, line 10. -/
def SAMPLE_RATE : ℕ := 44100

/-- The swara → semitone association table inside `swara_to_semitone`
(lines 15–39).  `\x27` is the ASCII apostrophe of the upper-Sa names. -/
def swaraMapping : List (String × ℤ) :=
  [("Sa", 0), ("komal Re", 1), ("Re", 2), ("komal Ga", 3), ("Ga", 4),
   ("Ma", 5), ("Tivra Ma", 6), ("Pa", 7), ("komal Dha", 8), ("Dha", 9),
   ("komal Ni", 10), ("Ni", 11), ("Sa\x27", 12),
   ("Sa↓", -12), ("komal Re↓", -11), ("Re↓", -10), ("komal Ga↓", -9), ("Ga↓", -8),
   ("Ma↓", -7), ("Tivra Ma↓", -6), ("Pa↓", -5), ("komal Dha↓", -4), ("Dha↓", -3),
   ("komal Ni↓", -2), ("Ni↓", -1),
   ("Sa↑", 12), ("komal Re↑", 13), ("Re↑", 14), ("komal Ga↑", 15), ("Ga↑", 16),
   ("Ma↑", 17), ("Tivra Ma↑", 18), ("Pa↑", 19), ("komal Dha↑", 20), ("Dha↑", 21),
   ("komal Ni↑", 22), ("Ni↑", 23), ("Sa\x27↑", 24)]

/-- Source `swara_to_semitone` (line 40): `mapping.get(swara, 0)` — an unknown
symbol silently resolves to `0`. -/
def swara_to_semitone (swara : String) : ℤ :=
  (swaraMapping.lookup swara).getD 0

/-- The `RAAGA` table (lines 43–49). -/
def RAAGA : List (String × List ℤ) :=
  [("bhairav",
      ["Sa", "komal Re", "Ga", "Ma", "Pa", "komal Dha", "Ni", "Sa\x27"].map swara_to_semitone),
   ("bhairavi",
      ["Sa", "komal Re", "komal Ga", "Ma", "Pa", "komal Dha", "komal Ni", "Sa\x27"].map swara_to_semitone),
   ("bhupali",
      ["Sa", "Re", "Ga", "Pa", "Dha", "Sa\x27"].map swara_to_semitone),
   ("malkauns",
      ["Sa", "komal Ga", "Ma", "komal Dha", "komal Ni", "Sa\x27"].map swara_to_semitone),
   ("asavari",
      ["Sa", "Re", "komal Ga", "Ma", "Pa", "komal Dha", "komal Ni", "Sa\x27"].map swara_to_semitone)]

/-- ASCII model of Python `str.lower()` (raaga names are ASCII). -/
def pyLower (s : String) : String :=
  ⟨s.data.map Char.toLower⟩

/-- Source `add_raaga` (lines 60–62): `RAAGA[name.lower()] = [swara_to_semitone(s) for s in swaras]`.
The dict update is modelled by prepending the new binding, so `lookup`
finds the newest one.  There is no failure path. -/
def add_raaga (table : List (String × List ℤ)) (name : String) (swaras : List String) :
    List (String × List ℤ) :=
  (pyLower name, swaras.map swara_to_semitone) :: table

/-- Python `min(valid, key=lambda x: abs(x - r))` (line 147): first element
of the list attaining the minimal key; raaga lists are nonempty. -/
def pyMinByDist (r : ℤ) : List ℤ → ℤ
  | [] => 0
  | h :: t => t.foldl (fun b x => if |x - r| < |b - r| then x else b) h

/-- Source `snap_to_raaga` (lines 145–148).  Python `//` and `%` are floor
division and floor modulus, which agree with the `Int` operators `/` and `%` for the
positive divisor 12. -/
def snap_to_raaga (valid : List ℤ) (semitone : ℤ) : ℤ :=
  12 * (semitone / 12) + pyMinByDist (semitone % 12) valid

/-- Model of `np.median`: sort ascending; middle element for odd length, mean of the
two middle elements for even length.  (Exact on the rational inputs the
program feeds it; the sorted value sequence is independent of the sorting
algorithm.) -/
def npMedian (l : List ℚ) : ℚ :=
  let s := l.insertionSort (· ≤ ·)
  if l.length % 2 = 1 then s.getD (l.length / 2) 0
  else (s.getD (l.length / 2 - 1) 0 + s.getD (l.length / 2) 0) / 2

/-- Python `int()` on a float: truncation toward zero. -/
def pyInt (q : ℚ) : ℤ :=
  if q < 0 then -⌊-q⌋ else ⌊q⌋

/-- The calibration collection loop of `detect_reference_sa`
(lines 77–86), over the sequence of per-block pitch estimates:
append every estimate strictly greater than 50. -/
def calibCollect (pitches : List ℚ) : List ℚ :=
  pitches.foldl (fun acc p => if 50 < p then acc ++ [p] else acc) []

/-- Source `detect_reference_sa` (lines 74–93) over the pitch estimates seen in
the calibration window: raise if nothing was collected, else return the
median. -/
def detect_reference_sa (pitches : List ℚ) : Except String ℚ :=
  let detected := calibCollect pitches
  if detected.isEmpty then
    Except.error "Could not detect Sa, please sing louder/clearer."
  else Except.ok (npMedian detected)

/-- Model of `np.diff`: successive differences. -/
def npDiff : List ℚ → List ℚ
  | [] => []
  | [_] => []
  | a :: b :: t => (b - a) :: npDiff (b :: t)

/-- Trend detection (lines 173–176): `np.sign(np.mean(np.diff(pitch_buffer)))`
when the buffer has at least 3 entries, else 0. -/
def trendOf (buf : List ℤ) : ℚ :=
  if 3 ≤ buf.length then
    let d := npDiff (buf.map (fun z => (z : ℚ)))
    let m := d.sum / (d.length : ℚ)
    if 0 < m then 1 else if m < 0 then -1 else 0
  else 0

/-- Model of the `deque(maxlen=6)` append (line 154/169): push right, evict left on
overflow. -/
def pushFifo (buf : List ℤ) (x : ℤ) : List ℤ :=
  let b := buf ++ [x]
  if 6 < b.length then b.drop (b.length - 6) else b

/-- Line 170: `median_note = int(np.median(pitch_buffer))`. -/
def candidateNote (buf : List ℤ) : ℚ :=
  (pyInt (npMedian (buf.map (fun z => (z : ℚ)))) : ℚ)

/-- Octave-jump guard condition (line 179). -/
def octaveJump (lastNote : Option ℚ) (m : ℚ) : Bool :=
  match lastNote with
  | none => false
  | some v => decide (12 < |m - v|)

/-- Commit-hysteresis condition (line 186):
`last_note is None or abs(median_note - last_note) > 0.2`. -/
def hysteresisTrigger (lastNote : Option ℚ) (m : ℚ) : Bool :=
  match lastNote with
  | none => true
  | some v => decide (1/5 < |m - v|)

/-- Python `last_note if last_note else 0` (line 190): `None` and `0.0` are
falsy and both yield 0, any other value yields itself. -/
def pyFalsyOr0 (lastNote : Option ℚ) : ℚ :=
  match lastNote with
  | none => 0
  | some v => if v = 0 then 0 else v

/-- The mutable tracker/glide globals (lines 115–118 and 153–155) that
`input_callback` reads or writes. -/
structure TrackerState where
  lastNote : Option ℚ
  pitchBuffer : List ℤ
  stableCounter : ℕ
  currentFreq : ℝ
  targetFreq : ℝ
  samplesRemaining : ℕ

/-- Line 189: `freq = REFERENCE_SA * (2 ** (median_note / 12))`. -/
noncomputable def commitFreq (sa : ℝ) (m : ℚ) : ℝ :=
  sa * (2 : ℝ) ^ ((m : ℝ) / 12)

/-- Lines 183–184: the candidate note after the directional micro slide
(`median_note += trend * 0.2` when the trend is nonzero and a last note
exists; `0.2 = 1/5`). -/
def biasedNote (lastNote : Option ℚ) (buf : List ℤ) : ℚ :=
  if trendOf buf ≠ 0 ∧ lastNote.isSome then candidateNote buf + trendOf buf * (1/5)
  else candidateNote buf

/-- Lines 190–192: `interval = abs(median_note - (last_note if last_note else 0))`,
`glide_time = BASE_MEEND_TIME * max(1, interval)` with `BASE_MEEND_TIME
= 0.08 = 2/25`, and `samples_remaining = max(int(glide_time * SAMPLE_RATE), 1)`
— `int()` truncates. -/
def glideSamples (lastNote : Option ℚ) (m : ℚ) : ℕ :=
  max (pyInt ((2/25) * max 1 |m - pyFalsyOr0 lastNote| * 44100)).toNat 1

/-- Source `input_callback` lines 169–198: the per-block tracker update after the
pitch guard and raaga snapping produced the integer `snapped`
(`HOLD_THRESHOLD = 4`).  Note the pitch-history push happens before the
octave-jump guard returns, exactly as in the source. -/
noncomputable def trackerStep (sa : ℝ) (snapped : ℤ) (st : TrackerState) : TrackerState :=
  let buf := pushFifo st.pitchBuffer snapped
  let st1 : TrackerState := { st with pitchBuffer := buf }
  if octaveJump st.lastNote (candidateNote buf) then st1
  else
    let m := biasedNote st.lastNote buf
    if hysteresisTrigger st.lastNote m then
      if 4 ≤ st.stableCounter + 1 then
        { st1 with
          samplesRemaining := glideSamples st.lastNote m,
          targetFreq := commitFreq sa m,
          lastNote := some m,
          stableCounter := 0 }
      else { st1 with stableCounter := st.stableCounter + 1 }
    else { st1 with stableCounter := 0 }

/-- Python `round()`: nearest integer, ties to even. -/
noncomputable def pyRound (x : ℝ) : ℤ :=
  if Int.fract x < 1/2 then ⌊x⌋
  else if 1/2 < Int.fract x then ⌊x⌋ + 1
  else if 2 ∣ ⌊x⌋ then ⌊x⌋ else ⌊x⌋ + 1

/-- Line 165: `semitones = 12 * np.log2(pitch / REFERENCE_SA)`. -/
noncomputable def semitonesOf (sa pitch : ℝ) : ℝ :=
  12 * Real.logb 2 (pitch / sa)

/-- Source `input_callback` (lines 157–198): guard on non-positive pitch or unset
reference Sa, then snap and run the tracker update. -/
noncomputable def inputCallback (raaga : List ℤ) (sa : Option ℝ) (pitch : ℝ)
    (st : TrackerState) : TrackerState :=
  if pitch ≤ 0 ∨ sa.isNone then st
  else
    let s := sa.getD 0
    trackerStep s (snap_to_raaga raaga (pyRound (semitonesOf s pitch))) st

/-- The flute oscillator frequency state (globals, lines 115–118), over an
arbitrary ordered field so that both exact counterexamples (`ℚ`) and the
real-valued synthesis model (`ℝ`) reuse one definition. -/
structure FluteState (α : Type _) where
  currentFreq : α
  targetFreq : α
  samplesRemaining : ℕ

/-- Model of `np.linspace(a, b, n, endpoint=False)`: `a + i*(b-a)/n` for `i < n`. -/
def linspaceEF {α : Type _} [Field α] (a b : α) (n : ℕ) : List α :=
  (List.range n).map (fun i => a + ((i : α) * (b - a)) / (n : α))

/-- Source `flute_callback` lines 122–133: the per-sample instantaneous
frequencies of one output block of `frames` samples, and the updated
state.  With a ramp pending, it ramps `linspace(current, target, step,
endpoint=False)` where `step = min(frames, remaining)`, sets
`current = ramp[-1]`, decrements `remaining` by `step`, and fills any rest
of the block (and, once the ramp is exhausted, whole blocks) with the held
`current`. -/
def fluteFreqs {α : Type _} [LinearOrderedField α] (frames : ℕ) (st : FluteState α) :
    List α × FluteState α :=
  if 0 < st.samplesRemaining then
    let step := min frames st.samplesRemaining
    let ramp := linspaceEF st.currentFreq st.targetFreq step
    let c := ramp.getLastD st.currentFreq
    (ramp ++ List.replicate (frames - step) c,
     { st with currentFreq := c, samplesRemaining := st.samplesRemaining - step })
  else
    (List.replicate frames st.currentFreq, st)

/-- Model of `np.cumsum`: running partial sums (inclusive). -/
def cumsum : List ℝ → List ℝ
  | [] => []
  | a :: t => a :: (cumsum t).map (fun x => a + x)

/-- Python `a % m` for a positive float modulus: `a - m * floor(a / m)`. -/
noncomputable def pyMod (a m : ℝ) : ℝ :=
  a - m * ⌊a / m⌋

/-- Source `flute_callback` lines 135–137: the per-sample phases of a block, from
the carried-over accumulator `phase0`:
`phases = np.cumsum(2π * freqs / SAMPLE_RATE) + phase`. -/
noncomputable def phasesOf (phase0 : ℝ) (freqs : List ℝ) : List ℝ :=
  (cumsum (freqs.map (fun f => 2 * Real.pi * f / (SAMPLE_RATE : ℝ)))).map (fun x => x + phase0)

/-- Source `flute_callback` lines 135–140: output samples of one block and the
wrapped phase stored for the next block
(`wave = 0.3 * (sin(phases) + 0.5 * sin(2 * phases))`,
`phase = phases[-1] % (2π)`). -/
noncomputable def fluteBlock (phase0 : ℝ) (freqs : List ℝ) : List ℝ × ℝ :=
  let phases := phasesOf phase0 freqs
  (phases.map (fun p => 0.3 * (Real.sin p + 0.5 * Real.sin (2 * p))),
   pyMod (phases.getLastD phase0) (2 * Real.pi))

/-! ## Spec-side definitions

These two definitions follow the wording of the specification (not the
source) and are compared against the source-derived definitions above. -/

/-- Spec §4.3 step 3 tie-break wording: the first offset, in the defined
order of the raaga, among those at minimal distance to `r`. -/
def firstMinByDist (r : ℤ) (l : List ℤ) : ℤ :=
  (l.filter (fun x => l.all (fun y => decide (|x - r| ≤ |y - r|)))).headD 0

/-- Spec wording of "the median": middle element of the sorted values for
odd length, mean of the two middle elements for even length. -/
def medianOfSorted (t : List ℚ) : ℚ :=
  if t.length % 2 = 1 then t.getD (t.length / 2) 0
  else (t.getD (t.length / 2 - 1) 0 + t.getD (t.length / 2) 0) / 2

/-! ## C3: snap_to_raaga -/

/-- The twelve possible residues of `· % 12`. -/
def residues12 : List ℤ := [0, 1, 2, 3, 4, 5, 6, 7, 8, 9, 10, 11]

lemma mem_residues12 (r : ℤ) (h0 : 0 ≤ r) (h1 : r < 12) : r ∈ residues12 := by
  interval_cases r <;> decide

lemma snap_core : ∀ p ∈ RAAGA, ∀ r ∈ residues12,
    (pyMinByDist r p.2) % 12 ∈ p.2 ∧ |pyMinByDist r p.2 - r| ≤ 6 ∧
    pyMinByDist r p.2 = firstMinByDist r p.2 := by decide

/-- C3: for every integer semitone `s` and every raaga of the table, the
octave-relative offset of `snap_to_raaga` is a member of the offset list
of the raaga, the result is at most 6 semitones from `s`, and the chosen
nearest offset is the first minimal-distance offset in the defined order
of the raaga. -/
theorem snap_to_raaga_sound (nm : String) (valid : List ℤ)
    (h : (nm, valid) ∈ RAAGA) (s : ℤ) :
    (snap_to_raaga valid s) % 12 ∈ valid ∧
    |snap_to_raaga valid s - s| ≤ 6 ∧
    pyMinByDist (s % 12) valid = firstMinByDist (s % 12) valid := by
  have h0 : 0 ≤ s % 12 := Int.emod_nonneg s (by norm_num)
  have h1 : s % 12 < 12 := Int.emod_lt_of_pos s (by norm_num)
  obtain ⟨hmem, hdist, hfirst⟩ :=
    snap_core (nm, valid) h (s % 12) (mem_residues12 _ h0 h1)
  have hs : 12 * (s / 12) + s % 12 = s := Int.ediv_add_emod s 12
  refine ⟨?_, ?_, hfirst⟩
  · unfold snap_to_raaga
    have h2 : (12 * (s / 12) + pyMinByDist (s % 12) valid) % 12
        = pyMinByDist (s % 12) valid % 12 := by omega
    rw [h2]
    exact hmem
  · unfold snap_to_raaga
    have h2 : 12 * (s / 12) + pyMinByDist (s % 12) valid - s
        = pyMinByDist (s % 12) valid - s % 12 := by omega
    rw [h2]
    exact hdist

theorem snap_to_raaga_sound_witness :
    ("bhairav", ([0, 1, 4, 5, 7, 8, 11, 12] : List ℤ)) ∈ RAAGA ∧
    ((snap_to_raaga [0, 1, 4, 5, 7, 8, 11, 12] 100) % 12 ∈
        ([0, 1, 4, 5, 7, 8, 11, 12] : List ℤ) ∧
      |snap_to_raaga [0, 1, 4, 5, 7, 8, 11, 12] 100 - 100| ≤ 6 ∧
      pyMinByDist (100 % 12) [0, 1, 4, 5, 7, 8, 11, 12]
        = firstMinByDist (100 % 12) [0, 1, 4, 5, 7, 8, 11, 12]) :=
  ⟨by decide, snap_to_raaga_sound "bhairav" _ (by decide) 100⟩

/-! ## C6: add_raaga with unknown symbols -/

/-- C6 counterexample: `"Unknown Swara"` is not in the swara table, yet
`swara_to_semitone` silently resolves it to 0 and `add_raaga` stores a
raaga mapping it to offset 0 — registration does not fail. -/
theorem add_raaga_unknown_counterexample :
    swaraMapping.lookup "Unknown Swara" = none ∧
    swara_to_semitone "Unknown Swara" = 0 ∧
    (add_raaga RAAGA "custom" ["Unknown Swara"]).lookup "custom" = some [0] := by
  decide

/-- C6 amended: raaga registration never fails; it always stores the
lower-cased name bound to the eagerly resolved offsets, and a symbol
missing from the swara table resolves to the default offset 0. -/
theorem add_raaga_amended (table : List (String × List ℤ)) (name : String)
    (swaras : List String) :
    (add_raaga table name swaras).lookup (pyLower name)
      = some (swaras.map swara_to_semitone) ∧
    ∀ s : String, swaraMapping.lookup s = none → swara_to_semitone s = 0 := by
  constructor
  · simp [add_raaga, List.lookup]
  · intro s h
    simp [swara_to_semitone, h]

theorem add_raaga_amended_witness :
    (add_raaga RAAGA "MyRaag" ["Sa", "Pa"]).lookup "myraag" = some [0, 7] ∧
    swara_to_semitone "zzz" = 0 := by
  have h := add_raaga_amended RAAGA "MyRaag" ["Sa", "Pa"]
  have h1 : pyLower "MyRaag" = "myraag" := by decide
  have h2 : (["Sa", "Pa"].map swara_to_semitone) = [0, 7] := by decide
  rw [h1, h2] at h
  exact ⟨h.1, h.2 "zzz" (by decide)⟩

/-! ## C4: calibration -/

lemma calibCollect_eq_filter (ps : List ℚ) :
    calibCollect ps = ps.filter (fun p => decide (50 < p)) := by
  have h : ∀ acc : List ℚ,
      ps.foldl (fun acc p => if 50 < p then acc ++ [p] else acc) acc
        = acc ++ ps.filter (fun p => decide (50 < p)) := by
    induction ps with
    | nil => intro acc; simp
    | cons a t ih =>
      intro acc
      by_cases hap : 50 < a
      · simp [hap, ih, List.filter_cons]
      · simp [hap, ih, List.filter_cons]
  simpa [calibCollect] using h []

lemma npMedian_eq_medianOfSorted (l : List ℚ) :
    npMedian l = medianOfSorted (l.insertionSort (· ≤ ·)) := by
  simp [npMedian, medianOfSorted, List.length_insertionSort]

/-- C4: calibration returns the median of exactly the estimates strictly
greater than 50 Hz, and fails if and only if no estimate exceeded 50 Hz. -/
theorem detect_reference_sa_spec (ps : List ℚ) :
    (detect_reference_sa ps
        = Except.error "Could not detect Sa, please sing louder/clearer."
      ↔ ps.filter (fun p => decide (50 < p)) = []) ∧
    (ps.filter (fun p => decide (50 < p)) ≠ [] →
      ∃ t : List ℚ, (ps.filter (fun p => decide (50 < p))).Perm t ∧
        t.Sorted (· ≤ ·) ∧
        detect_reference_sa ps = Except.ok (medianOfSorted t)) := by
  have hc := calibCollect_eq_filter ps
  constructor
  · by_cases hf : ps.filter (fun p => decide (50 < p)) = [] <;>
      simp [detect_reference_sa, hc, hf]
  · intro hne
    refine ⟨(ps.filter (fun p => decide (50 < p))).insertionSort (· ≤ ·),
      (List.perm_insertionSort _ _).symm, List.sorted_insertionSort _ _, ?_⟩
    simp [detect_reference_sa, hc, hne, npMedian_eq_medianOfSorted]

theorem detect_reference_sa_spec_witness :
    ([10, 100, 300, 200] : List ℚ).filter (fun p => decide (50 < p)) ≠ [] ∧
    ∃ t : List ℚ,
      (([10, 100, 300, 200] : List ℚ).filter (fun p => decide (50 < p))).Perm t ∧
      t.Sorted (· ≤ ·) ∧
      detect_reference_sa [10, 100, 300, 200] = Except.ok (medianOfSorted t) := by
  have hne : ([10, 100, 300, 200] : List ℚ).filter (fun p => decide (50 < p)) ≠ [] := by
    norm_num [List.filter_cons]
    simp
  exact ⟨hne, (detect_reference_sa_spec [10, 100, 300, 200]).2 hne⟩

/-! ## C2: the glide ramp -/

/-- A committed glide: current 0 Hz, target 100 Hz, 8 ramp samples; output
blocks of 4 frames. -/
def c2Commit : FluteState ℚ := ⟨0, 100, 8⟩

lemma c2_block1 : fluteFreqs 4 c2Commit = ([0, 25, 50, 75], ⟨75, 100, 4⟩) := by
  norm_num [fluteFreqs, c2Commit, linspaceEF, List.range_succ]

lemma c2_block2 :
    fluteFreqs 4 (⟨75, 100, 4⟩ : FluteState ℚ) = ([75, 325/4, 175/2, 375/4], ⟨375/4, 100, 0⟩) := by
  norm_num [fluteFreqs, linspaceEF, List.range_succ]

lemma c2_block3 :
    fluteFreqs 4 (⟨375/4, 100, 0⟩ : FluteState ℚ)
      = (List.replicate 4 (375/4), ⟨375/4, 100, 0⟩) := by
  norm_num [fluteFreqs]

/-- C2 (code bug): with an 8-sample ramp scheduled from 0 Hz to 100 Hz and
4-frame blocks, the first block ramp `linspace(current, target, min(frames,
remaining), endpoint=False)` already spans the whole distance to the
target, so sample 3 emits 75 Hz where a linear 8-sample ramp emits 37.5 Hz;
and once the scheduled 8 samples have elapsed the oscillator holds 93.75 Hz
forever, never the 100 Hz target. -/
theorem flute_ramp_code_bug :
    (fluteFreqs 4 c2Commit).1 = [0, 25, 50, 75] ∧
    ((0 : ℚ) + 3 * ((100 - 0) / 8) = 75/2) ∧
    ((75 : ℚ) ≠ 75/2) ∧
    (fluteFreqs 4 ((fluteFreqs 4 c2Commit).2)).2.samplesRemaining = 0 ∧
    (fluteFreqs 4 ((fluteFreqs 4 ((fluteFreqs 4 c2Commit).2)).2)).1
      = List.replicate 4 (375/4) ∧
    ((375/4 : ℚ) ≠ 100) := by
  rw [c2_block1]
  norm_num [c2_block2, c2_block3]

/-! ## Tracker helpers shared by C1, C5, C7, C8 -/

lemma pyInt_intCast (z : ℤ) : pyInt (z : ℚ) = z := by
  unfold pyInt
  rcases lt_or_le (z : ℚ) 0 with h | h
  · rw [if_pos h, ← Int.cast_neg, Int.floor_intCast]
    ring
  · rw [if_neg (not_lt.mpr h), Int.floor_intCast]

lemma trackerStep_commit (sa : ℝ) (snapped : ℤ) (st : TrackerState)
    (hoct : octaveJump st.lastNote (candidateNote (pushFifo st.pitchBuffer snapped)) = false)
    (hhyst : hysteresisTrigger st.lastNote
        (biasedNote st.lastNote (pushFifo st.pitchBuffer snapped)) = true)
    (hc : 3 ≤ st.stableCounter) :
    trackerStep sa snapped st =
      { lastNote := some (biasedNote st.lastNote (pushFifo st.pitchBuffer snapped)),
        pitchBuffer := pushFifo st.pitchBuffer snapped,
        stableCounter := 0,
        currentFreq := st.currentFreq,
        targetFreq := commitFreq sa (biasedNote st.lastNote (pushFifo st.pitchBuffer snapped)),
        samplesRemaining := glideSamples st.lastNote
          (biasedNote st.lastNote (pushFifo st.pitchBuffer snapped)) } := by
  have hc4 : 4 ≤ st.stableCounter + 1 := by omega
  simp only [trackerStep, hoct, hhyst, hc4, Bool.false_eq_true, if_false, if_true]

lemma trackerStep_octave_guard (sa : ℝ) (snapped : ℤ) (st : TrackerState)
    (hoct : octaveJump st.lastNote (candidateNote (pushFifo st.pitchBuffer snapped)) = true) :
    trackerStep sa snapped st = { st with pitchBuffer := pushFifo st.pitchBuffer snapped } := by
  simp only [trackerStep, hoct, if_true]

/-- A state about to commit an upward move: last note 4, three qualifying
blocks already counted, history [4, 4, 5, 5, 5], next snapped note 5. -/
def c1St : TrackerState := ⟨some 4, [4, 4, 5, 5, 5], 3, 0, 0, 0⟩

lemma c1_buf : pushFifo c1St.pitchBuffer 5 = [4, 4, 5, 5, 5, 5] := by decide

lemma c1_candidate : candidateNote [4, 4, 5, 5, 5, 5] = 5 := by
  norm_num [candidateNote, npMedian, pyInt, List.insertionSort, List.orderedInsert]

lemma c1_trend : trendOf [4, 4, 5, 5, 5, 5] = 1 := by
  norm_num [trendOf, npDiff]

lemma c1_biased : biasedNote c1St.lastNote (pushFifo c1St.pitchBuffer 5) = 26/5 := by
  rw [c1_buf]
  norm_num [biasedNote, c1_trend, c1_candidate, c1St]

lemma c1_floor : ⌊(21168/5 : ℚ)⌋ = 4233 := by
  rw [Int.floor_eq_iff]
  norm_num

lemma c1_glide : glideSamples c1St.lastNote (26/5) = 4233 := by
  have h1 : |26/5 - pyFalsyOr0 c1St.lastNote| = (6/5 : ℚ) := by
    norm_num [pyFalsyOr0, c1St]
  have h2 : max (1 : ℚ) (6/5) = 6/5 := max_eq_right (by norm_num)
  have h3 : ((2 : ℚ)/25) * (6/5) * 44100 = 21168/5 := by norm_num
  have h4 : pyInt (21168/5 : ℚ) = 4233 := by
    rw [pyInt, if_neg (by norm_num), c1_floor]
  rw [glideSamples, h1, h2, h3, h4]
  decide

lemma c1_hoct :
    octaveJump c1St.lastNote (candidateNote (pushFifo c1St.pitchBuffer 5)) = false := by
  rw [c1_buf, c1_candidate]
  norm_num [octaveJump, c1St]

lemma c1_hhyst :
    hysteresisTrigger c1St.lastNote (biasedNote c1St.lastNote (pushFifo c1St.pitchBuffer 5))
      = true := by
  rw [c1_biased]
  norm_num [hysteresisTrigger, c1St]
  rw [abs_of_pos] <;> norm_num

lemma trackerStep_c1 (sa : ℝ) :
    trackerStep sa 5 c1St =
      { lastNote := some (26/5), pitchBuffer := [4, 4, 5, 5, 5, 5],
        stableCounter := 0, currentFreq := 0,
        targetFreq := commitFreq sa (26/5), samplesRemaining := 4233 } := by
  rw [trackerStep_commit sa 5 c1St c1_hoct c1_hhyst (by norm_num [c1St]),
    c1_biased, c1_glide, c1_buf]
  rfl

/-! ## C1: the directional micro-bias -/

/-- C1 counterexample: at the concrete commit from `c1St` the trend is +1
and the unbiased candidate is 5, yet the code commits last note
26/5 = 5.2 and target frequency `commitFreq 220 (26/5)`, which differs
from the unbiased `commitFreq 220 5` — the micro-bias is not confined to
the hysteresis comparison. -/
theorem micro_bias_counterexample :
    candidateNote (pushFifo c1St.pitchBuffer 5) = 5 ∧
    trendOf (pushFifo c1St.pitchBuffer 5) = 1 ∧
    (trackerStep 220 5 c1St).lastNote = some (26/5) ∧
    ((26/5 : ℚ) ≠ 5) ∧
    (trackerStep 220 5 c1St).targetFreq ≠ commitFreq 220 5 := by
  refine ⟨by rw [c1_buf]; exact c1_candidate, by rw [c1_buf]; exact c1_trend,
    by rw [trackerStep_c1], by norm_num, ?_⟩
  rw [trackerStep_c1]
  have h : commitFreq 220 5 < commitFreq 220 (26/5) := by
    unfold commitFreq
    have h2 : ((5 : ℚ) : ℝ)/12 < ((26/5 : ℚ) : ℝ)/12 := by
      push_cast
      norm_num
    have h3 := (Real.rpow_lt_rpow_left_iff (by norm_num : (1:ℝ) < 2)).mpr h2
    exact mul_lt_mul_of_pos_left h3 (by norm_num)
  exact ne_of_gt h

/-- C1 amended: when a commit happens with a nonzero trend and an existing
last note, the micro-bias `trend * 0.2` is included in both the committed
last note and the committed target frequency:
`last = candidate + trend * 0.2` and
`target_freq = tonic * 2^((candidate + trend * 0.2)/12)`. -/
theorem micro_bias_commit_included (sa : ℝ) (snapped : ℤ) (st : TrackerState) (ln : ℚ)
    (hln : st.lastNote = some ln)
    (htr : trendOf (pushFifo st.pitchBuffer snapped) ≠ 0)
    (hoct : ¬ 12 < |candidateNote (pushFifo st.pitchBuffer snapped) - ln|)
    (hhyst : 1/5 < |candidateNote (pushFifo st.pitchBuffer snapped) +
        trendOf (pushFifo st.pitchBuffer snapped) * (1/5) - ln|)
    (hc : 3 ≤ st.stableCounter) :
    (trackerStep sa snapped st).lastNote
      = some (candidateNote (pushFifo st.pitchBuffer snapped) +
          trendOf (pushFifo st.pitchBuffer snapped) * (1/5)) ∧
    (trackerStep sa snapped st).targetFreq
      = commitFreq sa (candidateNote (pushFifo st.pitchBuffer snapped) +
          trendOf (pushFifo st.pitchBuffer snapped) * (1/5)) := by
  have hbias : biasedNote st.lastNote (pushFifo st.pitchBuffer snapped)
      = candidateNote (pushFifo st.pitchBuffer snapped) +
        trendOf (pushFifo st.pitchBuffer snapped) * (1/5) := by
    rw [biasedNote, if_pos]
    exact ⟨htr, by rw [hln]; rfl⟩
  have hoct' :
      octaveJump st.lastNote (candidateNote (pushFifo st.pitchBuffer snapped)) = false := by
    rw [hln]
    simpa [octaveJump] using hoct
  have hhyst' : hysteresisTrigger st.lastNote
      (biasedNote st.lastNote (pushFifo st.pitchBuffer snapped)) = true := by
    rw [hbias, hln]
    simpa [hysteresisTrigger] using hhyst
  rw [trackerStep_commit sa snapped st hoct' hhyst' hc, hbias]
  exact ⟨rfl, rfl⟩

theorem micro_bias_commit_included_witness :
    (trackerStep 220 5 c1St).lastNote
      = some (candidateNote (pushFifo c1St.pitchBuffer 5) +
          trendOf (pushFifo c1St.pitchBuffer 5) * (1/5)) ∧
    (trackerStep 220 5 c1St).targetFreq
      = commitFreq 220 (candidateNote (pushFifo c1St.pitchBuffer 5) +
          trendOf (pushFifo c1St.pitchBuffer 5) * (1/5)) :=
  micro_bias_commit_included 220 5 c1St 4 rfl
    (by rw [c1_buf, c1_trend]; norm_num)
    (by rw [c1_buf, c1_candidate]; norm_num)
    (by rw [c1_buf, c1_candidate, c1_trend]; norm_num; rw [abs_of_pos] <;> norm_num)
    (by norm_num [c1St])

/-! ## C5: the ramp-sample count -/

/-- C5 counterexample: at the commit from `c1St` the interval is
6/5 semitones, so `0.08 * max(1, 6/5) * 44100 = 4233.6`.  The code stores
`int(4233.6) = 4233`; the claim says `round(4233.6) = 4234`. -/
theorem glide_round_counterexample :
    (trackerStep 220 5 c1St).lastNote = some (26/5) ∧
    (trackerStep 220 5 c1St).samplesRemaining = 4233 ∧
    max (round ((2/25 : ℚ) * max 1 |(26/5 : ℚ) - 4| * 44100)).toNat 1 = 4234 ∧
    ((4233 : ℕ) ≠ 4234) := by
  refine ⟨by rw [trackerStep_c1], by rw [trackerStep_c1], ?_, by norm_num⟩
  have h1 : |(26/5 : ℚ) - 4| = 6/5 := by norm_num
  have h2 : max (1 : ℚ) (6/5) = 6/5 := max_eq_right (by norm_num)
  have h3 : ((2 : ℚ)/25) * (6/5) * 44100 = 21168/5 := by norm_num
  rw [h1, h2, h3, round_eq]
  have h4 : ⌊(21168/5 : ℚ) + 1/2⌋ = 4234 := by
    rw [Int.floor_eq_iff]
    norm_num
  rw [h4]
  decide

/-- C5 amended: the ramp-sample count stored at a commit is
`max(int(0.08 * max(1, interval) * 44100), 1)` where `int()` truncates
toward zero (so it is the floor of the nonnegative product, not its
rounding), `interval` being measured from the biased committed note. -/
theorem glide_samples_truncated (sa : ℝ) (snapped : ℤ) (st : TrackerState)
    (hoct : octaveJump st.lastNote (candidateNote (pushFifo st.pitchBuffer snapped)) = false)
    (hhyst : hysteresisTrigger st.lastNote
        (biasedNote st.lastNote (pushFifo st.pitchBuffer snapped)) = true)
    (hc : 3 ≤ st.stableCounter) :
    (trackerStep sa snapped st).samplesRemaining
      = max (pyInt ((2/25) *
          max 1 |biasedNote st.lastNote (pushFifo st.pitchBuffer snapped) -
            pyFalsyOr0 st.lastNote| * 44100)).toNat 1 ∧
    1 ≤ (trackerStep sa snapped st).samplesRemaining ∧
    ∀ q : ℚ, 0 ≤ q → ((pyInt q : ℚ) ≤ q ∧ q - 1 < (pyInt q : ℚ)) := by
  rw [trackerStep_commit sa snapped st hoct hhyst hc]
  refine ⟨rfl, le_max_right _ 1, ?_⟩
  intro q hq
  have h : pyInt q = ⌊q⌋ := by rw [pyInt, if_neg (not_lt.mpr hq)]
  rw [h]
  exact ⟨Int.floor_le q, Int.sub_one_lt_floor q⟩

theorem glide_samples_truncated_witness :
    (trackerStep 220 5 c1St).samplesRemaining
      = max (pyInt ((2/25) *
          max 1 |biasedNote c1St.lastNote (pushFifo c1St.pitchBuffer 5) -
            pyFalsyOr0 c1St.lastNote| * 44100)).toNat 1 ∧
    1 ≤ (trackerStep 220 5 c1St).samplesRemaining ∧
    ((pyInt (21168/5 : ℚ) : ℚ) ≤ 21168/5 ∧ (21168/5 : ℚ) - 1 < (pyInt (21168/5 : ℚ) : ℚ)) := by
  have h := glide_samples_truncated 220 5 c1St c1_hoct c1_hhyst (by norm_num [c1St])
  exact ⟨h.1, h.2.1, h.2.2 (21168/5) (by norm_num)⟩

/-! ## C7: transient tracking gaps -/

/-- C7 amended: a block with a non-positive pitch estimate or no reference
tonic mutates nothing; a block whose candidate is more than 12 semitones
from the last committed note leaves the last note, target frequency,
ramp-sample count and stability counter unchanged, but the snapped value
has already been pushed into the pitch-history buffer. -/
theorem tracking_gap_amended (raaga : List ℤ) (sa : Option ℝ) (pitch : ℝ)
    (st : TrackerState) :
    (pitch ≤ 0 → inputCallback raaga sa pitch st = st) ∧
    (sa = none → inputCallback raaga sa pitch st = st) ∧
    (∀ (saf : ℝ) (snapped : ℤ) (ln : ℚ), st.lastNote = some ln →
      12 < |candidateNote (pushFifo st.pitchBuffer snapped) - ln| →
      trackerStep saf snapped st
        = { st with pitchBuffer := pushFifo st.pitchBuffer snapped }) := by
  refine ⟨fun h => ?_, fun h => ?_, fun saf snapped ln hln hjump => ?_⟩
  · rw [inputCallback, if_pos (Or.inl h)]
  · rw [inputCallback, if_pos (Or.inr (by rw [h]; rfl))]
  · refine trackerStep_octave_guard saf snapped st ?_
    rw [hln]
    simpa [octaveJump] using hjump

def gapSt : TrackerState := ⟨some 0, [], 0, 0, 0, 0⟩

lemma semitonesOf_rpow (sa : ℝ) (hsa : 0 < sa) (k : ℝ) :
    semitonesOf sa (sa * (2:ℝ) ^ (k/12)) = k := by
  unfold semitonesOf
  rw [mul_div_cancel_left₀ _ (ne_of_gt hsa), Real.logb_rpow (by norm_num) (by norm_num)]
  ring

lemma pyRound_intCast (n : ℤ) : pyRound (n : ℝ) = n := by
  unfold pyRound
  rw [Int.fract_intCast]
  norm_num

lemma candidateNote_single (z : ℤ) : candidateNote [z] = (z : ℚ) := by
  simp [candidateNote, npMedian, List.insertionSort, List.orderedInsert, pyInt_intCast]

lemma inputCallback_gap :
    inputCallback [0, 2, 4, 7, 9, 12] (some 220) (220 * (2:ℝ) ^ ((20:ℝ)/12)) gapSt
      = { gapSt with pitchBuffer := [19] } := by
  have hpos : (0:ℝ) < 220 * (2:ℝ) ^ ((20:ℝ)/12) :=
    mul_pos (by norm_num) (Real.rpow_pos_of_pos (by norm_num) _)
  have hcond : ¬ (220 * (2:ℝ) ^ ((20:ℝ)/12) ≤ 0 ∨ (some (220:ℝ)).isNone = true) := by
    rintro (h | h)
    · linarith
    · simp at h
  simp only [inputCallback, Option.getD_some]
  rw [if_neg hcond]
  rw [semitonesOf_rpow 220 (by norm_num) 20, show (20:ℝ) = ((20:ℤ):ℝ) by norm_num,
    pyRound_intCast, show snap_to_raaga [0, 2, 4, 7, 9, 12] 20 = 19 by decide]
  refine trackerStep_octave_guard _ 19 gapSt ?_
  have hb : pushFifo gapSt.pitchBuffer 19 = [19] := by decide
  rw [hb, candidateNote_single]
  norm_num [octaveJump, gapSt]

/-- C7 counterexample: a block whose detected pitch lies 19 snapped
semitones above the tonic while the last committed note is 0 is an
octave-jump gap, yet the block does mutate the session state: the snapped
note 19 is pushed into the pitch-history buffer. -/
theorem tracking_gap_counterexample :
    gapSt.lastNote = some 0 ∧ gapSt.pitchBuffer = [] ∧
    12 < |candidateNote [19] - (0:ℚ)| ∧
    (inputCallback [0, 2, 4, 7, 9, 12] (some 220) (220 * (2:ℝ) ^ ((20:ℝ)/12)) gapSt).pitchBuffer
      = [19] ∧
    inputCallback [0, 2, 4, 7, 9, 12] (some 220) (220 * (2:ℝ) ^ ((20:ℝ)/12)) gapSt ≠ gapSt := by
  refine ⟨rfl, rfl, by rw [candidateNote_single]; norm_num, by rw [inputCallback_gap], ?_⟩
  intro h
  have h2 := congrArg TrackerState.pitchBuffer h
  rw [inputCallback_gap] at h2
  simp [gapSt] at h2

theorem tracking_gap_amended_witness :
    inputCallback [0, 2, 4, 7, 9, 12] (some 220) (-1) gapSt = gapSt ∧
    inputCallback [0, 2, 4, 7, 9, 12] none 300 gapSt = gapSt ∧
    trackerStep 220 19 gapSt = { gapSt with pitchBuffer := pushFifo gapSt.pitchBuffer 19 } := by
  have h := tracking_gap_amended [0, 2, 4, 7, 9, 12] (some 220) (-1) gapSt
  have h2 := tracking_gap_amended [0, 2, 4, 7, 9, 12] none 300 gapSt
  refine ⟨h.1 (by norm_num), h2.2.1 rfl, h.2.2 220 19 0 rfl ?_⟩
  rw [show pushFifo gapSt.pitchBuffer 19 = [19] by decide, candidateNote_single]
  norm_num

/-! ## C8: the smoothing median -/

lemma pushFifo_spec (buf : List ℤ) (x : ℤ) :
    (buf.length ≤ 6 → (pushFifo buf x).length ≤ 6) ∧
    (buf.length < 6 → pushFifo buf x = buf ++ [x]) ∧
    (buf.length = 6 → pushFifo buf x = buf.tail ++ [x]) := by
  refine ⟨fun h => ?_, fun h => ?_, fun h => ?_⟩
  · rw [pushFifo]
    split
    · simp
      omega
    · simp at *
      omega
  · rw [pushFifo, if_neg (by simp; omega)]
  · rw [pushFifo, if_pos (by simp; omega)]
    have hlen : (buf ++ [x]).length - 6 = 1 := by simp [h]
    rw [hlen]
    cases buf with
    | nil => simp at h
    | cons a t => simp

/-- C8 amended: the snapped integer is pushed into the capacity-6 FIFO
buffer (oldest evicted on overflow) in every branch of the tracker, and the
candidate note equals the true median of the buffer contents truncated
toward zero by the Python `int()` (hence not always the median itself). -/
theorem candidate_median_amended (sa : ℝ) (snapped : ℤ) (st : TrackerState) :
    (trackerStep sa snapped st).pitchBuffer = pushFifo st.pitchBuffer snapped ∧
    (st.pitchBuffer.length ≤ 6 → (pushFifo st.pitchBuffer snapped).length ≤ 6) ∧
    (st.pitchBuffer.length < 6 →
      pushFifo st.pitchBuffer snapped = st.pitchBuffer ++ [snapped]) ∧
    (st.pitchBuffer.length = 6 →
      pushFifo st.pitchBuffer snapped = st.pitchBuffer.tail ++ [snapped]) ∧
    ∃ t : List ℚ,
      ((pushFifo st.pitchBuffer snapped).map (fun z => (z:ℚ))).Perm t ∧
      t.Sorted (· ≤ ·) ∧
      candidateNote (pushFifo st.pitchBuffer snapped) = (pyInt (medianOfSorted t) : ℚ) := by
  obtain ⟨h1, h2, h3⟩ := pushFifo_spec st.pitchBuffer snapped
  refine ⟨?_, h1, h2, h3, ?_⟩
  · simp only [trackerStep]
    split
    · rfl
    · split
      · split
        · rfl
        · rfl
      · rfl
  · refine ⟨((pushFifo st.pitchBuffer snapped).map (fun z => (z:ℚ))).insertionSort (· ≤ ·),
      (List.perm_insertionSort _ _).symm, List.sorted_insertionSort _ _, ?_⟩
    rw [candidateNote, npMedian_eq_medianOfSorted]

def c8St : TrackerState := ⟨none, [0], 3, 0, 0, 0⟩

/-- C8 counterexample: pushing snapped note 1 onto history [0] gives the
buffer [0, 1], whose median is 1/2; the candidate note the code computes
and commits is `int(0.5) = 0`, not the median. -/
theorem candidate_median_counterexample :
    pushFifo c8St.pitchBuffer 1 = [0, 1] ∧
    npMedian (([0, 1] : List ℤ).map (fun z => (z:ℚ))) = 1/2 ∧
    candidateNote [0, 1] = 0 ∧
    (trackerStep 220 1 c8St).lastNote = some 0 ∧
    ((0:ℚ) ≠ 1/2) := by
  have hcand : candidateNote [0, 1] = 0 := by
    norm_num [candidateNote, npMedian, List.insertionSort, List.orderedInsert, pyInt]
  have hbuf : pushFifo c8St.pitchBuffer 1 = [0, 1] := by decide
  refine ⟨hbuf, ?_, hcand, ?_, by norm_num⟩
  · norm_num [npMedian, List.insertionSort, List.orderedInsert]
  · have hstep := trackerStep_commit 220 1 c8St (by rw [hbuf]; rfl) (by rw [hbuf]; rfl)
      (by norm_num [c8St])
    rw [hstep]
    have hbias : biasedNote c8St.lastNote (pushFifo c8St.pitchBuffer 1) = 0 := by
      rw [hbuf]
      simp [biasedNote, c8St, hcand]
    rw [hbias]

theorem candidate_median_amended_witness :
    (trackerStep 220 1 c8St).pitchBuffer = pushFifo c8St.pitchBuffer 1 ∧
    (pushFifo c8St.pitchBuffer 1).length ≤ 6 ∧
    pushFifo c8St.pitchBuffer 1 = c8St.pitchBuffer ++ [1] ∧
    ∃ t : List ℚ,
      ((pushFifo c8St.pitchBuffer 1).map (fun z => (z:ℚ))).Perm t ∧
      t.Sorted (· ≤ ·) ∧
      candidateNote (pushFifo c8St.pitchBuffer 1) = (pyInt (medianOfSorted t) : ℚ) := by
  have h := candidate_median_amended 220 1 c8St
  exact ⟨h.1, h.2.1 (by decide), h.2.2.1 (by decide), h.2.2.2.2⟩

/-! ## C9: phase accumulation -/

lemma cumsum_eq_map (l : List ℝ) :
    cumsum l = (List.range l.length).map (fun k => (l.take (k+1)).sum) := by
  induction l with
  | nil => rfl
  | cons a t ih =>
    simp only [cumsum, ih, List.length_cons, List.range_succ_eq_map, List.map_cons,
      List.map_map, List.take_succ_cons, List.sum_cons, List.take_zero,
      List.sum_nil, add_zero]
    simp [Function.comp, Nat.succ_eq_add_one]

lemma cumsum_map_add_getLastD (l : List ℝ) : ∀ a : ℝ,
    ((cumsum l).map (fun x => x + a)).getLastD a = a + l.sum := by
  induction l with
  | nil =>
    intro a
    simp [cumsum]
  | cons b t ih =>
    intro a
    simp only [cumsum, List.map_cons, List.getLastD_cons]
    have h : ((cumsum t).map (fun x => b + x)).map (fun x => x + a)
        = (cumsum t).map (fun x => x + (b + a)) := by
      rw [List.map_map]
      congr 1
      funext x
      simp [Function.comp]
      ring
    rw [h, ih (b + a), List.sum_cons]
    ring

lemma pyMod_bounds (a m : ℝ) (hm : 0 < m) : 0 ≤ pyMod a m ∧ pyMod a m < m := by
  have h1 : (⌊a / m⌋ : ℝ) ≤ a / m := Int.floor_le _
  have h2 : a / m < ⌊a / m⌋ + 1 := Int.lt_floor_add_one _
  have hma : m * (a / m) = a := by field_simp
  constructor
  · rw [pyMod, sub_nonneg]
    calc m * (⌊a / m⌋ : ℝ) ≤ m * (a / m) :=
          mul_le_mul_of_nonneg_left h1 (le_of_lt hm)
      _ = a := hma
  · rw [pyMod]
    have h3 : a < m * ((⌊a / m⌋ : ℝ) + 1) := by
      calc a = m * (a / m) := hma.symm
        _ < m * ((⌊a / m⌋ : ℝ) + 1) := mul_lt_mul_of_pos_left h2 hm
    have h4 : m * ((⌊a / m⌋ : ℝ) + 1) = m * (⌊a / m⌋ : ℝ) + m := by ring
    rw [h4] at h3
    linarith

/-- C9: within one output block the phase accumulator gains
`2π·f/SAMPLE_RATE` per sample (sample `k` carries the carried-over phase
plus the increments of samples `0..k`), it starts from the carried-over
phase (the very first sample is `phase0` plus the first increment, so the
accumulator is never reset), and the phase stored for the next block is the
final accumulated phase wrapped by Python `%` into `[0, 2π)`. -/
theorem flute_phase_accumulation (phase0 f : ℝ) (rest : List ℝ) :
    phasesOf phase0 (f :: rest)
      = (List.range (rest.length + 1)).map
          (fun k => phase0 + (((f :: rest).take (k + 1)).map
            (fun g => 2 * Real.pi * g / (SAMPLE_RATE : ℝ))).sum) ∧
    (phasesOf phase0 (f :: rest)).getD 0 0
      = phase0 + 2 * Real.pi * f / (SAMPLE_RATE : ℝ) ∧
    (fluteBlock phase0 (f :: rest)).2
      = pyMod (phase0 + ((f :: rest).map
          (fun g => 2 * Real.pi * g / (SAMPLE_RATE : ℝ))).sum) (2 * Real.pi) ∧
    0 ≤ (fluteBlock phase0 (f :: rest)).2 ∧
    (fluteBlock phase0 (f :: rest)).2 < 2 * Real.pi := by
  have hmain : phasesOf phase0 (f :: rest)
      = (List.range (rest.length + 1)).map
          (fun k => phase0 + (((f :: rest).take (k + 1)).map
            (fun g => 2 * Real.pi * g / (SAMPLE_RATE : ℝ))).sum) := by
    rw [phasesOf, cumsum_eq_map, List.map_map, List.length_map, List.length_cons]
    congr 1
    funext k
    simp only [Function.comp, ← List.map_take]
    ring
  have hlast : (phasesOf phase0 (f :: rest)).getLastD phase0
      = phase0 + ((f :: rest).map (fun g => 2 * Real.pi * g / (SAMPLE_RATE : ℝ))).sum := by
    rw [phasesOf]
    exact cumsum_map_add_getLastD _ phase0
  have hsnd : (fluteBlock phase0 (f :: rest)).2
      = pyMod (phase0 + ((f :: rest).map
          (fun g => 2 * Real.pi * g / (SAMPLE_RATE : ℝ))).sum) (2 * Real.pi) := by
    show pyMod ((phasesOf phase0 (f :: rest)).getLastD phase0) (2 * Real.pi) = _
    rw [hlast]
  have hb := pyMod_bounds (phase0 + ((f :: rest).map
      (fun g => 2 * Real.pi * g / (SAMPLE_RATE : ℝ))).sum) (2 * Real.pi) Real.two_pi_pos
  refine ⟨hmain, ?_, hsnd, ?_, ?_⟩
  · rw [hmain, List.range_succ_eq_map]
    simp [List.take_succ_cons]
  · rw [hsnd]
    exact hb.1
  · rw [hsnd]
    exact hb.2

/-! ## C10: the output amplitude bound -/

lemma waveSample_bound (p : ℝ) :
    |0.3 * (Real.sin p + 0.5 * Real.sin (2 * p))| ≤ 0.45 := by
  have h1 := Real.neg_one_le_sin p
  have h2 := Real.sin_le_one p
  have h3 := Real.neg_one_le_sin (2 * p)
  have h4 := Real.sin_le_one (2 * p)
  rw [abs_le]
  constructor <;> nlinarith

/-- C10: every sample of a flute output block, `0.3 * (sin(phase) +
0.5 * sin(2 * phase))`, has absolute value at most 0.45, so the tone alone
never clips a unit-range sink. -/
theorem flute_output_bounded (phase0 : ℝ) (freqs : List ℝ) (i : ℕ) :
    |(fluteBlock phase0 freqs).1.getD i 0| ≤ 0.45 := by
  have hfst : (fluteBlock phase0 freqs).1
      = (phasesOf phase0 freqs).map
          (fun p => 0.3 * (Real.sin p + 0.5 * Real.sin (2 * p))) := rfl
  rw [hfst]
  rcases lt_or_le i ((phasesOf phase0 freqs).map
      (fun p => 0.3 * (Real.sin p + 0.5 * Real.sin (2 * p)))).length with h | h
  · rw [List.getD_eq_getElem _ _ h, List.getElem_map]
    exact waveSample_bound _
  · rw [List.getD_eq_default _ _ h]
    norm_num

end Techsen
